import Mathlib

/-!
Verification of the Asteroid Storm simulation core (shared math utilities,
collision engine and resolver, entity update functions, room input loop and
client prediction) against its natural-language specification.

Numbers are modelled as rationals.  The JavaScript library functions
Math.sqrt / Math.cos / Math.sin / Math.atan2 and the constant Math.PI are not
exactly representable, so every definition that uses them is parametrised by a
NumKernel bundling those functions; theorems that need analytic facts about
them take those facts as hypotheses, and witnesses instantiate the kernel with
the computable rational kernel ratKernel defined below.  Math.random draws and
generated entity ids are passed in explicitly as streams.
-/

namespace AsteroidsSpec

/-- Truncation toward zero, the rounding used by the JavaScript `%` operator. -/
def ratTrunc (q : ℚ) : ℤ :=
  if 0 ≤ q then ⌊q⌋ else ⌈q⌉

/-- JavaScript remainder `a % n`: `a - n * trunc (a / n)`. -/
def jsMod (a n : ℚ) : ℚ :=
  a - n * (ratTrunc (a / n) : ℚ)

/-- 2D vector, from `shared/src/types.ts`. -/
structure Vector2 where
  x : ℚ
  y : ℚ
deriving DecidableEq, Repr

/-- Bundle of the transcendental operations the source takes from `Math`. -/
structure NumKernel where
  sqrt : ℚ → ℚ
  cos : ℚ → ℚ
  sin : ℚ → ℚ
  atan2 : ℚ → ℚ → ℚ
  pi : ℚ

namespace Vec2

/-- Vec2.zero from `shared/src/math.ts`. -/
def zero : Vector2 := ⟨0, 0⟩

/-- Vec2.add. -/
def add (a b : Vector2) : Vector2 := ⟨a.x + b.x, a.y + b.y⟩

/-- Vec2.subtract. -/
def subtract (a b : Vector2) : Vector2 := ⟨a.x - b.x, a.y - b.y⟩

/-- Vec2.multiply (scalar). -/
def multiply (v : Vector2) (scalar : ℚ) : Vector2 := ⟨v.x * scalar, v.y * scalar⟩

/-- Vec2.divide (scalar). -/
def divide (v : Vector2) (scalar : ℚ) : Vector2 := ⟨v.x / scalar, v.y / scalar⟩

/-- Vec2.lengthSquared. -/
def lengthSquared (v : Vector2) : ℚ := v.x * v.x + v.y * v.y

/-- Vec2.length: `Math.sqrt (x*x + y*y)` through the kernel. -/
def length (K : NumKernel) (v : Vector2) : ℚ := K.sqrt (lengthSquared v)

/-- Vec2.distanceSquared. -/
def distanceSquared (a b : Vector2) : ℚ := lengthSquared (subtract a b)

/-- Vec2.distance. -/
def distance (K : NumKernel) (a b : Vector2) : ℚ := length K (subtract a b)

/-- Vec2.normalize: returns the zero vector when the length is zero. -/
def normalize (K : NumKernel) (v : Vector2) : Vector2 :=
  if length K v = 0 then ⟨0, 0⟩ else divide v (length K v)

/-- Vec2.fromAngle. -/
def fromAngle (K : NumKernel) (angle magnitude : ℚ) : Vector2 :=
  ⟨K.cos angle * magnitude, K.sin angle * magnitude⟩

/-- Vec2.angle (`Math.atan2 y x`). -/
def angle (K : NumKernel) (v : Vector2) : ℚ := K.atan2 v.y v.x

/-- Vec2.limitLength: rescale to maxLength when the squared length exceeds
`maxLength * maxLength`. -/
def limitLength (K : NumKernel) (v : Vector2) (maxLength : ℚ) : Vector2 :=
  if lengthSquared v > maxLength * maxLength then multiply (normalize K v) maxLength
  else v

end Vec2

/-- wrapPosition from `shared/src/math.ts`: `((p % w) + w) % w` per axis. -/
def wrapPosition (position : Vector2) (worldWidth worldHeight : ℚ) : Vector2 :=
  ⟨jsMod (jsMod position.x worldWidth + worldWidth) worldWidth,
   jsMod (jsMod position.y worldHeight + worldHeight) worldHeight⟩

/-- Result record of circleCircleCollision; the source returns the depth and
normal fields only in the collided case. -/
structure CollisionResult where
  collided : Bool
  depth : Option ℚ
  normal : Option Vector2
deriving DecidableEq, Repr

/-- circleCircleCollision from `shared/src/math.ts`. -/
def circleCircleCollision (K : NumKernel) (pos1 : Vector2) (radius1 : ℚ)
    (pos2 : Vector2) (radius2 : ℚ) : CollisionResult :=
  if Vec2.length K (Vec2.subtract pos2 pos1) < radius1 + radius2 ∧
      0 < Vec2.length K (Vec2.subtract pos2 pos1) then
    { collided := true
      depth := some (radius1 + radius2 - Vec2.length K (Vec2.subtract pos2 pos1))
      normal := some (Vec2.normalize K (Vec2.subtract pos2 pos1)) }
  else
    { collided := false, depth := none, normal := none }

/-- Largest j ≤ k with j * j ≤ n, by structural recursion so that it reduces
inside the kernel. -/
def isqrtAux : ℕ → ℕ → ℕ
  | 0, _ => 0
  | (k + 1), n => if (k + 1) * (k + 1) ≤ n then k + 1 else isqrtAux k n

/-- Integer square root (floor), kernel-reducible. -/
def isqrt (n : ℕ) : ℕ := isqrtAux n n

theorem isqrtAux_mono_arg (k n j : ℕ) (hj : j ≤ k) (h : j * j ≤ n) :
    j ≤ isqrtAux k n := by
  induction k with
  | zero =>
    interval_cases j
    exact Nat.le_refl 0
  | succ k ih =>
    unfold isqrtAux
    split_ifs with hk
    · exact hj
    · rcases Nat.lt_or_ge j (k + 1) with hlt | hge
      · exact ih (Nat.lt_succ_iff.mp hlt)
      · exact absurd h (by
          have hje : j = k + 1 := le_antisymm hj hge
          rw [hje]
          exact hk)

theorem isqrt_eq_zero_iff (n : ℕ) : isqrt n = 0 ↔ n = 0 := by
  constructor
  · intro h
    by_contra hn
    have h1 : 1 ≤ n := Nat.one_le_iff_ne_zero.mpr hn
    have := isqrtAux_mono_arg n n 1 h1 (by simpa using h1)
    rw [isqrt] at h
    omega
  · intro h
    subst h
    rfl

/-- Computable rational square root used to instantiate the kernel in
witnesses: exact on rationals whose numerator and denominator are perfect
squares, nonnegative everywhere. -/
def ratSqrt (q : ℚ) : ℚ :=
  (isqrt q.num.natAbs : ℚ) / (isqrt q.den : ℚ)

/-- Concrete computable kernel for witnesses.  Its cosine and sine are the
constant functions 1 and 0, which satisfy the unit-circle identity. -/
def ratKernel : NumKernel :=
  { sqrt := ratSqrt
    cos := fun _ => 1
    sin := fun _ => 0
    atan2 := fun _ _ => 0
    pi := 355 / 113 }

theorem ratSqrt_nonneg (q : ℚ) : 0 ≤ ratSqrt q :=
  div_nonneg (Nat.cast_nonneg _) (Nat.cast_nonneg _)

theorem ratSqrt_zero : ratSqrt 0 = 0 := by
  simp [ratSqrt, isqrt, isqrtAux]

/- Range lemmas for the JavaScript remainder. -/

theorem jsMod_nonneg_lt (a n : ℚ) (hn : 0 < n) (ha : 0 ≤ a) :
    0 ≤ jsMod a n ∧ jsMod a n < n := by
  have hq : 0 ≤ a / n := div_nonneg ha hn.le
  have ht : ratTrunc (a / n) = ⌊a / n⌋ := if_pos hq
  have hna : n * (a / n) = a := by field_simp
  have hkey : jsMod a n = n * Int.fract (a / n) := by
    simp only [jsMod, ht, Int.fract]
    rw [mul_sub, hna]
  have h1 : 0 ≤ Int.fract (a / n) := Int.fract_nonneg _
  have h2 : Int.fract (a / n) < 1 := Int.fract_lt_one _
  constructor
  · rw [hkey]; exact mul_nonneg hn.le h1
  · rw [hkey]
    calc n * Int.fract (a / n) < n * 1 := by exact (mul_lt_mul_left hn).mpr h2
    _ = n := mul_one n

theorem jsMod_neg_le (a n : ℚ) (hn : 0 < n) (ha : a < 0) :
    -n < jsMod a n ∧ jsMod a n ≤ 0 := by
  have hq : ¬ 0 ≤ a / n := by
    simp only [not_le]
    exact div_neg_of_neg_of_pos ha hn
  have ht : ratTrunc (a / n) = ⌈a / n⌉ := if_neg hq
  have h1 : a / n ≤ (⌈a / n⌉ : ℚ) := Int.le_ceil _
  have h2 : (⌈a / n⌉ : ℚ) < a / n + 1 := Int.ceil_lt_add_one _
  have hdn : n * (a / n) = a := by field_simp
  constructor
  · simp only [jsMod, ht]
    nlinarith [mul_lt_mul_of_pos_left h2 hn]
  · simp only [jsMod, ht]
    nlinarith [mul_le_mul_of_nonneg_left h1 hn.le]

theorem jsMod_of_mem (x n : ℚ) (hn : 0 < n) (h0 : 0 ≤ x) (h1 : x < n) :
    jsMod x n = x := by
  have hfl : ⌊x / n⌋ = 0 := by
    rw [Int.floor_eq_zero_iff]
    constructor
    · exact div_nonneg h0 hn.le
    · rw [div_lt_one hn]; exact h1
  have ht : ratTrunc (x / n) = 0 := by
    rw [ratTrunc, if_pos (div_nonneg h0 hn.le), hfl]
  simp [jsMod, ht]

theorem jsMod_add_self_of_mem (x n : ℚ) (hn : 0 < n) (h0 : 0 ≤ x) (h1 : x < n) :
    jsMod (x + n) n = x := by
  have hfl : ⌊(x + n) / n⌋ = 1 := by
    rw [Int.floor_eq_iff]
    constructor
    · push_cast
      rw [le_div_iff₀ hn]
      linarith
    · push_cast
      rw [div_lt_iff₀ hn]
      linarith
  have ht : ratTrunc ((x + n) / n) = 1 := by
    have : 0 ≤ (x + n) / n := div_nonneg (by linarith) hn.le
    rw [ratTrunc, if_pos this, hfl]
  simp only [jsMod, ht]
  push_cast
  ring

theorem wrapAxis_mem (x n : ℚ) (hn : 0 < n) :
    0 ≤ jsMod (jsMod x n + n) n ∧ jsMod (jsMod x n + n) n < n := by
  rcases le_or_lt 0 x with hx | hx
  · have h := jsMod_nonneg_lt x n hn hx
    exact jsMod_nonneg_lt _ n hn (by linarith [h.1])
  · have h := jsMod_neg_le x n hn hx
    exact jsMod_nonneg_lt _ n hn (by linarith [h.1])

theorem wrapAxis_fixed (x n : ℚ) (hn : 0 < n) (h0 : 0 ≤ x) (h1 : x < n) :
    jsMod (jsMod x n + n) n = x := by
  rw [jsMod_of_mem x n hn h0 h1, jsMod_add_self_of_mem x n hn h0 h1]

/-- C8: for every position and positive world dimensions, wrapPosition lands in
`[0, w) × [0, h)`, and it is the identity on positions already in that box
(idempotence). -/
theorem wrapPosition_range_idem (p : Vector2) (w h : ℚ) (hw : 0 < w) (hh : 0 < h) :
    (0 ≤ (wrapPosition p w h).x ∧ (wrapPosition p w h).x < w ∧
     0 ≤ (wrapPosition p w h).y ∧ (wrapPosition p w h).y < h) ∧
    (0 ≤ p.x → p.x < w → 0 ≤ p.y → p.y < h → wrapPosition p w h = p) := by
  constructor
  · have hx := wrapAxis_mem p.x w hw
    have hy := wrapAxis_mem p.y h hh
    exact ⟨hx.1, hx.2, hy.1, hy.2⟩
  · intro hx0 hx1 hy0 hy1
    simp only [wrapPosition]
    rw [wrapAxis_fixed p.x w hw hx0 hx1, wrapAxis_fixed p.y h hh hy0 hy1]

/-- Witness for C8 at a concrete position and the configured world size. -/
theorem wrapPosition_range_idem_witness :
    (0:ℚ) < 4096 ∧
    (0 ≤ (wrapPosition ⟨5000, -3⟩ 4096 4096).x ∧ (wrapPosition ⟨5000, -3⟩ 4096 4096).x < 4096 ∧
     0 ≤ (wrapPosition ⟨5000, -3⟩ 4096 4096).y ∧ (wrapPosition ⟨5000, -3⟩ 4096 4096).y < 4096) :=
  ⟨by norm_num,
   (wrapPosition_range_idem ⟨5000, -3⟩ 4096 4096 (by norm_num) (by norm_num)).1⟩

/-- C9: circleCircleCollision reports no collision exactly when the computed
centre distance is zero or at least the radius sum; in the collided case it
returns depth `r1 + r2 - distance` and the normal `delta / distance` (the unit
vector from the first centre toward the second), and that division is never by
zero; coincident centres never collide. -/
theorem circleCircleCollision_cases (K : NumKernel) (p1 p2 : Vector2) (r1 r2 : ℚ)
    (hnn : ∀ q, 0 ≤ K.sqrt q) (h0 : K.sqrt 0 = 0) :
    ((circleCircleCollision K p1 r1 p2 r2).collided = false ↔
      Vec2.length K (Vec2.subtract p2 p1) = 0 ∨
        r1 + r2 ≤ Vec2.length K (Vec2.subtract p2 p1)) ∧
    ((circleCircleCollision K p1 r1 p2 r2).collided = true →
      Vec2.length K (Vec2.subtract p2 p1) ≠ 0 ∧
      (circleCircleCollision K p1 r1 p2 r2).depth =
        some (r1 + r2 - Vec2.length K (Vec2.subtract p2 p1)) ∧
      (circleCircleCollision K p1 r1 p2 r2).normal =
        some (Vec2.divide (Vec2.subtract p2 p1) (Vec2.length K (Vec2.subtract p2 p1)))) ∧
    (p1 = p2 → (circleCircleCollision K p1 r1 p2 r2).collided = false) := by
  set d := Vec2.length K (Vec2.subtract p2 p1) with hd
  have hdnn : 0 ≤ d := hnn _
  by_cases hcond : d < r1 + r2 ∧ 0 < d
  · have hres : circleCircleCollision K p1 r1 p2 r2 =
        { collided := true, depth := some (r1 + r2 - d),
          normal := some (Vec2.divide (Vec2.subtract p2 p1) d) } := by
      simp only [circleCircleCollision, Vec2.normalize, ← hd]
      rw [if_pos hcond, if_neg (ne_of_gt hcond.2)]
    rw [hres]
    refine ⟨?_, ?_, ?_⟩
    · constructor
      · intro hfalse; exact Bool.noConfusion hfalse
      · rintro (hz | hge)
        · exact absurd hz (ne_of_gt hcond.2)
        · exact absurd hge (not_le.mpr hcond.1)
    · intro _
      exact ⟨ne_of_gt hcond.2, rfl, rfl⟩
    · intro heq
      exfalso
      have hzero : Vec2.subtract p2 p1 = ⟨0, 0⟩ := by
        cases p1; cases p2
        simp only [Vec2.subtract] at heq ⊢
        cases heq
        simp
      have hzd : d = 0 := by
        rw [hd, hzero]
        simp [Vec2.length, Vec2.lengthSquared, h0]
      exact absurd hzd (ne_of_gt hcond.2)
  · have hres : circleCircleCollision K p1 r1 p2 r2 =
        { collided := false, depth := none, normal := none } := by
      simp only [circleCircleCollision, ← hd]
      rw [if_neg hcond]
    rw [hres]
    refine ⟨?_, ?_, ?_⟩
    · constructor
      · intro _
        rcases not_and_or.mp hcond with hnlt | hnpos
        · exact Or.inr (not_lt.mp hnlt)
        · exact Or.inl (le_antisymm (not_lt.mp hnpos) hdnn)
      · intro _; rfl
    · intro htrue
      exact Bool.noConfusion htrue
    · intro _
      rfl

/-- Witness for C9: the rational kernel satisfies the hypotheses, and two
circles with identical centres report no collision. -/
theorem circleCircleCollision_cases_witness :
    (circleCircleCollision ratKernel ⟨1, 2⟩ 3 ⟨1, 2⟩ 4).collided = false :=
  (circleCircleCollision_cases ratKernel ⟨1, 2⟩ ⟨1, 2⟩ 3 4
    (fun q => ratSqrt_nonneg q) ratSqrt_zero).2.2 rfl

/-! Game constants from `shared/src/constants.ts`. -/

def WORLD_WIDTH : ℚ := 4096
def WORLD_HEIGHT : ℚ := 4096
def FIXED_TIMESTEP : ℚ := 1 / 60
def PLAYER_MAX_SPEED : ℚ := 420
def PLAYER_ACCELERATION : ℚ := 320
def BRAKE_DECELERATION : ℚ := 180
def ROTATION_SPEED : ℚ := 5.2
def PLAYER_MAX_HEALTH : ℚ := 100
def PLAYER_MAX_LIVES : ℚ := 3
def INVULNERABILITY_TIME : ℚ := 2000
def FIRE_RATE : ℚ := 120
def BULLET_SPEED : ℚ := 900
def BULLET_LIFETIME : ℚ := 3000

inductive AsteroidSize where
  | large
  | medium
  | small
deriving DecidableEq, Repr

/-- Per-size asteroid configuration record (ASTEROID_CONFIG). -/
structure AsteroidCfg where
  radius : ℚ
  minSpeed : ℚ
  maxSpeed : ℚ
  points : ℚ
  splitCount : ℕ
deriving DecidableEq, Repr

/-- ASTEROID_CONFIG from `shared/src/constants.ts`. -/
def asteroidConfig : AsteroidSize → AsteroidCfg
  | .large => ⟨40, 20, 60, 20, 2⟩
  | .medium => ⟨20, 40, 100, 50, 2⟩
  | .small => ⟨10, 60, 140, 100, 0⟩

/-! Entity model from `shared/src/types.ts`. -/

structure Transform where
  position : Vector2
  rotation : ℚ
deriving DecidableEq, Repr

structure Velocity where
  linear : Vector2
  angular : ℚ
deriving DecidableEq, Repr

structure Player where
  id : String
  name : String
  transform : Transform
  velocity : Velocity
  health : ℚ
  score : ℚ
  lives : ℚ
  isAlive : Bool
  lastInputSequence : ℚ
  invulnerableUntil : ℚ
  lastShotTime : ℚ
deriving DecidableEq, Repr

structure Asteroid where
  id : String
  transform : Transform
  velocity : Velocity
  size : AsteroidSize
  radius : ℚ
deriving DecidableEq, Repr

structure Bullet where
  id : String
  playerId : String
  transform : Transform
  velocity : Vector2
  createdAt : ℚ
  lifetime : ℚ
deriving DecidableEq, Repr

structure InputState where
  thrust : Bool
  rotate : ℚ
  brake : Bool
  shoot : Bool
deriving DecidableEq, Repr

/-! Entity functions from `shared/src/simulation/entities.ts`.  The random
draws consumed by `Math.random()` and the ids produced by `generateId()` are
passed in explicitly. -/

/-- createAsteroid: rotation and angular velocity take the two random draws
the source obtains from `Math.random()`; the radius comes from the size's
configuration. -/
def createAsteroid (K : NumKernel) (newId : String) (rotRand angRand : ℚ)
    (position velocity : Vector2) (size : AsteroidSize) : Asteroid :=
  { id := newId
    transform := { position := position, rotation := rotRand * K.pi * 2 }
    velocity := { linear := velocity, angular := (angRand - 0.5) * 4 }
    size := size
    radius := (asteroidConfig size).radius }

/-- createBullet.  Note the source signature takes exactly these four data
parameters (plus the generated id); the call site in GameWorld.shootBullet
passes a fifth argument (the player's velocity) that this signature drops, so
the bullet's velocity is `normalize direction * BULLET_SPEED` with no
contribution from the player's own velocity. -/
def createBullet (K : NumKernel) (newId : String) (playerId : String)
    (position direction : Vector2) (timestamp : ℚ) : Bullet :=
  { id := newId
    playerId := playerId
    transform := { position := position, rotation := Vec2.angle K direction }
    velocity := Vec2.multiply (Vec2.normalize K direction) BULLET_SPEED
    createdAt := timestamp
    lifetime := BULLET_LIFETIME }

/-- updatePlayerMovement from `shared/src/simulation/entities.ts`, the shared
movement function used by both the server and the client prediction. -/
def updatePlayerMovement (K : NumKernel) (p : Player) (input : InputState)
    (deltaTime : ℚ) : Player :=
  let rot :=
    if input.rotate ≠ 0 then p.transform.rotation + input.rotate * ROTATION_SPEED * deltaTime
    else p.transform.rotation
  let v1 :=
    if input.thrust then
      Vec2.add p.velocity.linear (Vec2.fromAngle K rot (PLAYER_ACCELERATION * deltaTime))
    else p.velocity.linear
  let v2 :=
    if input.brake then
      if 0 < Vec2.length K v1 then
        Vec2.subtract v1
          (Vec2.multiply (Vec2.normalize K v1)
            (min (BRAKE_DECELERATION * deltaTime) (Vec2.length K v1)))
      else v1
    else v1
  let v3 := Vec2.limitLength K v2 PLAYER_MAX_SPEED
  let pos :=
    wrapPosition (Vec2.add p.transform.position (Vec2.multiply v3 deltaTime))
      WORLD_WIDTH WORLD_HEIGHT
  { p with
    transform := { position := pos, rotation := rot }
    velocity := { p.velocity with linear := v3 } }

/-- canPlayerShoot: the fire-rate gate. -/
def canPlayerShoot (p : Player) (currentTime : ℚ) : Bool :=
  FIRE_RATE ≤ currentTime - p.lastShotTime

/-- Loop body of splitAsteroid producing the children of the given new size.
The random stream rng supplies, for child i, draw 4*i for the angle jitter,
4*i+1 for the speed, and 4*i+2, 4*i+3 for createAsteroid's rotation and spin;
ids supplies the generated child ids. -/
def splitChildren (K : NumKernel) (rng : ℕ → ℚ) (ids : ℕ → String)
    (a : Asteroid) (newSize : AsteroidSize) : List Asteroid :=
  (List.range (asteroidConfig a.size).splitCount).map (fun (i : ℕ) =>
    let angle := K.pi * 2 * (i : ℚ) / ((asteroidConfig a.size).splitCount : ℚ) +
      rng (4 * i) * 0.5
    let speed := rng (4 * i + 1) *
      ((asteroidConfig newSize).maxSpeed - (asteroidConfig newSize).minSpeed) +
      (asteroidConfig newSize).minSpeed
    createAsteroid K (ids i) (rng (4 * i + 2)) (rng (4 * i + 3))
      (Vec2.add a.transform.position
        (Vec2.fromAngle K angle (a.radius + (asteroidConfig newSize).radius + 5)))
      (Vec2.fromAngle K angle speed) newSize)

/-- splitAsteroid from `shared/src/simulation/entities.ts`. -/
def splitAsteroid (K : NumKernel) (rng : ℕ → ℚ) (ids : ℕ → String)
    (a : Asteroid) : List Asteroid :=
  if (asteroidConfig a.size).splitCount = 0 then []
  else
    match a.size with
    | .large => splitChildren K rng ids a .medium
    | .medium => splitChildren K rng ids a .small
    | .small => []

/-! Collision resolver from `shared/src/simulation/collision.ts`. -/

/-- damagePlayerFromCollision: returns the updated player and whether this
damage destroyed the player.  Invulnerable or already-dead players take no
damage at all. -/
def damagePlayerFromCollision (p : Player) (damage currentTime : ℚ) :
    Player × Bool :=
  if currentTime < p.invulnerableUntil ∨ p.isAlive = false then (p, false)
  else
    if p.health - damage ≤ 0 then
      ({ p with health := 0, isAlive := false, lives := max 0 (p.lives - 1) }, true)
    else
      ({ p with health := p.health - damage }, false)

/-- splitAsteroidFromBullet from `shared/src/simulation/collision.ts`: the
source starts a dynamic `import('./entities.js')` whose result is discarded
and synchronously returns the empty array ("For now, return empty array to
avoid circular dependency"), so the resolver never produces split children. -/
def splitAsteroidFromBullet (_ : Asteroid) : List Asteroid := []

/-- getAsteroidScore from `shared/src/simulation/collision.ts` (the resolver's
hard-coded score table). -/
def getAsteroidScore (a : Asteroid) : ℚ :=
  match a.size with
  | .large => 20
  | .medium => 50
  | .small => 100

structure PlayerAsteroidCollision where
  playerId : String
  asteroidId : String
  asteroid : Asteroid
deriving DecidableEq, Repr

structure BulletAsteroidCollision where
  bulletId : String
  asteroidId : String
  bullet : Bullet
  asteroid : Asteroid
deriving DecidableEq, Repr

structure PlayerBulletCollision where
  playerId : String
  bulletId : String
  bullet : Bullet
deriving DecidableEq, Repr

structure CollisionEvents where
  playerAsteroidCollisions : List PlayerAsteroidCollision
  bulletAsteroidCollisions : List BulletAsteroidCollision
  playerBulletCollisions : List PlayerBulletCollision
deriving DecidableEq, Repr

structure ScoreUpdate where
  playerId : String
  points : ℚ
deriving DecidableEq, Repr

structure ParticleEffect where
  position : Vector2
  effectKind : String
  count : ℚ
deriving DecidableEq, Repr

structure ResolveCollisionResult where
  destroyedPlayers : List String
  destroyedAsteroids : List String
  destroyedBullets : List String
  newAsteroids : List Asteroid
  scoreUpdates : List ScoreUpdate
  particleEffects : List ParticleEffect
deriving DecidableEq, Repr

/-- Association list standing for the live `Map<string, Player>`; the source
resolver mutates player objects through the references carried by the events,
which aliases the map entries, so updates are modelled on the map. -/
def PlayersMap := List (String × Player)

instance : DecidableEq PlayersMap := by
  unfold PlayersMap
  infer_instance

/-- Lookup of a player by id. -/
def getPlayerEntry (ps : PlayersMap) (pid : String) : Option Player :=
  match ps with
  | [] => none
  | (k, v) :: rest => if k = pid then some v else getPlayerEntry rest pid

/-- Pointwise map update. -/
def setPlayerEntry (ps : PlayersMap) (pid : String) (p : Player) : PlayersMap :=
  match ps with
  | [] => []
  | (k, v) :: rest =>
    if k = pid then (k, p) :: rest else (k, v) :: setPlayerEntry rest pid p

/-- Player-asteroid handler of resolveCollisions: damage 100, on destruction
record the player and an 8-particle explosion at the player's position. -/
def resolvePlayerAsteroid (currentTime : ℚ)
    (acc : PlayersMap × ResolveCollisionResult) (c : PlayerAsteroidCollision) :
    PlayersMap × ResolveCollisionResult :=
  match getPlayerEntry acc.1 c.playerId with
  | none => acc
  | some p =>
    let dp := damagePlayerFromCollision p 100 currentTime
    let ps := setPlayerEntry acc.1 c.playerId dp.1
    if dp.2 then
      (ps,
       { acc.2 with
         destroyedPlayers := acc.2.destroyedPlayers ++ [c.playerId]
         particleEffects := acc.2.particleEffects ++
           [⟨dp.1.transform.position, "explosion", 8⟩] })
    else (ps, acc.2)

/-- Bullet-asteroid handler of resolveCollisions: destroy the bullet and the
asteroid, append the (empty) split result, award the hard-coded score to the
bullet's owner, and queue an explosion at the asteroid plus a hit spark at the
bullet. -/
def resolveBulletAsteroid (acc : PlayersMap × ResolveCollisionResult)
    (c : BulletAsteroidCollision) : PlayersMap × ResolveCollisionResult :=
  (acc.1,
   { acc.2 with
     destroyedBullets := acc.2.destroyedBullets ++ [c.bulletId]
     newAsteroids := acc.2.newAsteroids ++ splitAsteroidFromBullet c.asteroid
     destroyedAsteroids := acc.2.destroyedAsteroids ++ [c.asteroidId]
     scoreUpdates := acc.2.scoreUpdates ++
       [⟨c.bullet.playerId, getAsteroidScore c.asteroid⟩]
     particleEffects := acc.2.particleEffects ++
       [⟨c.asteroid.transform.position, "explosion", 6⟩,
        ⟨c.bullet.transform.position, "bulletHit", 3⟩] })

/-- Player-bullet (friendly-fire) handler of resolveCollisions: destroy the
bullet, damage 25, on destruction record the player and a 6-particle
explosion, and always queue a 2-particle hit spark at the bullet. -/
def resolvePlayerBullet (currentTime : ℚ)
    (acc : PlayersMap × ResolveCollisionResult) (c : PlayerBulletCollision) :
    PlayersMap × ResolveCollisionResult :=
  let acc1 : PlayersMap × ResolveCollisionResult :=
    (acc.1, { acc.2 with destroyedBullets := acc.2.destroyedBullets ++ [c.bulletId] })
  let acc2 : PlayersMap × ResolveCollisionResult :=
    match getPlayerEntry acc1.1 c.playerId with
    | none => acc1
    | some p =>
      let dp := damagePlayerFromCollision p 25 currentTime
      let ps := setPlayerEntry acc1.1 c.playerId dp.1
      if dp.2 then
        (ps,
         { acc1.2 with
           destroyedPlayers := acc1.2.destroyedPlayers ++ [c.playerId]
           particleEffects := acc1.2.particleEffects ++
             [⟨dp.1.transform.position, "explosion", 6⟩] })
      else (ps, acc1.2)
  (acc2.1,
   { acc2.2 with
     particleEffects := acc2.2.particleEffects ++
       [⟨c.bullet.transform.position, "bulletHit", 2⟩] })

/-- resolveCollisions from `shared/src/simulation/collision.ts`: the three
event lists are processed in order, threading the (aliased) player map. -/
def resolveCollisions (events : CollisionEvents) (players : PlayersMap)
    (currentTime : ℚ) : PlayersMap × ResolveCollisionResult :=
  let acc0 : PlayersMap × ResolveCollisionResult :=
    (players, ⟨[], [], [], [], [], []⟩)
  let acc1 := events.playerAsteroidCollisions.foldl (resolvePlayerAsteroid currentTime) acc0
  let acc2 := events.bulletAsteroidCollisions.foldl resolveBulletAsteroid acc1
  events.playerBulletCollisions.foldl (resolvePlayerBullet currentTime) acc2

/-! Concrete bullet-asteroid scenario: one LARGE asteroid at (100,100), hit by
a bullet owned by player P at (100,100). -/

def scenarioAsteroid : Asteroid :=
  { id := "a1", transform := ⟨⟨100, 100⟩, 0⟩, velocity := ⟨⟨0, 0⟩, 0⟩,
    size := .large, radius := 40 }

def scenarioBullet : Bullet :=
  { id := "b1", playerId := "P", transform := ⟨⟨100, 100⟩, 0⟩,
    velocity := ⟨0, 0⟩, createdAt := 0, lifetime := 3000 }

def scenarioPlayer : Player :=
  { id := "P", name := "P", transform := ⟨⟨0, 0⟩, 0⟩, velocity := ⟨⟨0, 0⟩, 0⟩,
    health := 100, score := 0, lives := 3, isAlive := true,
    lastInputSequence := 0, invulnerableUntil := 0, lastShotTime := 0 }

def scenarioEvents : CollisionEvents :=
  ⟨[], [⟨"b1", "a1", scenarioBullet, scenarioAsteroid⟩], []⟩

/-- C1 (the code side): resolving the scenario's bullet-asteroid collision
destroys the bullet and the asteroid, awards 20 points to player P, and queues
one explosion and one hit-spark effect — but, because splitAsteroidFromBullet
returns the empty array on its synchronous path, newAsteroids is empty instead
of holding the 2 MEDIUM children the specification requires. -/
theorem resolveCollisions_largeAsteroid_bulletHit_eval :
    (resolveCollisions scenarioEvents [("P", scenarioPlayer)] 1000).2.destroyedBullets = ["b1"] ∧
    (resolveCollisions scenarioEvents [("P", scenarioPlayer)] 1000).2.destroyedAsteroids = ["a1"] ∧
    (resolveCollisions scenarioEvents [("P", scenarioPlayer)] 1000).2.newAsteroids = [] ∧
    (resolveCollisions scenarioEvents [("P", scenarioPlayer)] 1000).2.scoreUpdates =
      [⟨"P", 20⟩] ∧
    (resolveCollisions scenarioEvents [("P", scenarioPlayer)] 1000).2.particleEffects =
      [⟨⟨100, 100⟩, "explosion", 6⟩, ⟨⟨100, 100⟩, "bulletHit", 3⟩] ∧
    (resolveCollisions scenarioEvents [("P", scenarioPlayer)] 1000).1 =
      [("P", scenarioPlayer)] :=
  ⟨rfl, rfl, rfl, rfl, rfl, rfl⟩

/-! Development for C5: the damage gate and the lives bound across one
resolution pass. -/

/-- Relation between a player's initial state and a later state reached by
repeated damagePlayerFromCollision calls: while still alive the lives count is
untouched, and in any case at most one life has been lost. -/
def livesInv (p0 q : Player) : Prop :=
  (q.isAlive = true → q.lives = p0.lives) ∧ p0.lives - 1 ≤ q.lives

theorem livesInv_refl (p : Player) : livesInv p p :=
  ⟨fun _ => rfl, by linarith⟩

theorem damage_preserves_livesInv (p0 q : Player) (d t : ℚ) (h : livesInv p0 q) :
    livesInv p0 (damagePlayerFromCollision q d t).1 := by
  unfold damagePlayerFromCollision
  split_ifs with hgate hdead
  · exact h
  · refine ⟨fun halive => Bool.noConfusion halive, ?_⟩
    have h1 : q.isAlive = true := by
      rcases not_or.mp hgate with ⟨_, hq⟩
      revert hq
      cases q.isAlive <;> simp
    have h2 := h.1 h1
    simp only
    calc p0.lives - 1 = q.lives - 1 := by rw [h2]
    _ ≤ max 0 (q.lives - 1) := le_max_right _ _
  · exact ⟨fun halive => h.1 halive, h.2⟩

/-- Map-level lookup lemmas. -/
theorem getPlayerEntry_set_same (m : PlayersMap) (pid : String) (p : Player) :
    getPlayerEntry (setPlayerEntry m pid p) pid = (getPlayerEntry m pid).map (fun _ => p) := by
  induction m with
  | nil => rfl
  | cons kv rest ih =>
    obtain ⟨k, v⟩ := kv
    by_cases hk : k = pid
    · simp [setPlayerEntry, getPlayerEntry, hk]
    · simp [setPlayerEntry, getPlayerEntry, hk, ih]

theorem getPlayerEntry_set_other (m : PlayersMap) (pid : String) (p : Player)
    (q : String) (h : q ≠ pid) :
    getPlayerEntry (setPlayerEntry m pid p) q = getPlayerEntry m q := by
  induction m with
  | nil => rfl
  | cons kv rest ih =>
    obtain ⟨k, v⟩ := kv
    by_cases hk : k = pid
    · subst hk
      have hkq : ¬ k = q := fun hh => h hh.symm
      simp [setPlayerEntry, getPlayerEntry, hkq]
    · by_cases hkq : k = q
      · subst hkq
        simp [setPlayerEntry, getPlayerEntry, hk]
      · simp [setPlayerEntry, getPlayerEntry, hk, hkq, ih]

/-- Invariant of the whole player map against its initial contents. -/
def mapLivesInv (init cur : PlayersMap) : Prop :=
  ∀ pid p0 q, getPlayerEntry init pid = some p0 →
    getPlayerEntry cur pid = some q → livesInv p0 q

theorem mapLivesInv_refl (m : PlayersMap) : mapLivesInv m m := by
  intro pid p0 q h0 h1
  rw [h0] at h1
  cases h1
  exact livesInv_refl p0

theorem mapLivesInv_damageStep (init cur : PlayersMap) (cid : String) (d t : ℚ)
    (h : mapLivesInv init cur) :
    ∀ p, getPlayerEntry cur cid = some p →
      mapLivesInv init (setPlayerEntry cur cid (damagePlayerFromCollision p d t).1) := by
  intro p hp pid p0 q h0 h1
  by_cases hpid : pid = cid
  · subst hpid
    rw [getPlayerEntry_set_same, hp] at h1
    simp only [Option.map_some'] at h1
    cases h1
    exact damage_preserves_livesInv p0 p d t (h pid p0 p h0 hp)
  · rw [getPlayerEntry_set_other _ _ _ _ hpid] at h1
    exact h pid p0 q h0 h1

theorem mapLivesInv_resolvePlayerAsteroid (init : PlayersMap) (t : ℚ)
    (acc : PlayersMap × ResolveCollisionResult) (c : PlayerAsteroidCollision)
    (h : mapLivesInv init acc.1) :
    mapLivesInv init (resolvePlayerAsteroid t acc c).1 := by
  unfold resolvePlayerAsteroid
  cases hget : getPlayerEntry acc.1 c.playerId with
  | none => simpa [hget] using h
  | some p =>
    have hstep := mapLivesInv_damageStep init acc.1 c.playerId 100 t h p hget
    by_cases hd : (damagePlayerFromCollision p 100 t).2
    · simpa [hget, hd] using hstep
    · simpa [hget, hd] using hstep

theorem mapLivesInv_resolveBulletAsteroid (init : PlayersMap)
    (acc : PlayersMap × ResolveCollisionResult) (c : BulletAsteroidCollision)
    (h : mapLivesInv init acc.1) :
    mapLivesInv init (resolveBulletAsteroid acc c).1 := h

theorem mapLivesInv_resolvePlayerBullet (init : PlayersMap) (t : ℚ)
    (acc : PlayersMap × ResolveCollisionResult) (c : PlayerBulletCollision)
    (h : mapLivesInv init acc.1) :
    mapLivesInv init (resolvePlayerBullet t acc c).1 := by
  unfold resolvePlayerBullet
  cases hget : getPlayerEntry acc.1 c.playerId with
  | none => simpa [hget] using h
  | some p =>
    have hstep := mapLivesInv_damageStep init acc.1 c.playerId 25 t h p hget
    by_cases hd : (damagePlayerFromCollision p 25 t).2
    · simpa [hget, hd] using hstep
    · simpa [hget, hd] using hstep

theorem mapLivesInv_foldl {α : Type}
    (step : (PlayersMap × ResolveCollisionResult) → α → (PlayersMap × ResolveCollisionResult))
    (hstep : ∀ init acc c, mapLivesInv init acc.1 → mapLivesInv init (step acc c).1)
    (init : PlayersMap) (l : List α) :
    ∀ acc, mapLivesInv init acc.1 → mapLivesInv init (l.foldl step acc).1 := by
  induction l with
  | nil => intro acc h; exact h
  | cons c rest ih =>
    intro acc h
    exact ih (step acc c) (hstep init acc c h)

theorem mapLivesInv_resolveCollisions (events : CollisionEvents)
    (players : PlayersMap) (t : ℚ) :
    mapLivesInv players (resolveCollisions events players t).1 := by
  unfold resolveCollisions
  apply mapLivesInv_foldl _ (fun i acc c h => mapLivesInv_resolvePlayerBullet i t acc c h)
  apply mapLivesInv_foldl _ (fun i acc c h => mapLivesInv_resolveBulletAsteroid i acc c h)
  apply mapLivesInv_foldl _ (fun i acc c h => mapLivesInv_resolvePlayerAsteroid i t acc c h)
  exact mapLivesInv_refl players

/-- C5: the damage/invulnerability gate.  An invulnerable or dead player is
returned unchanged; otherwise health becomes `max 0 (health - damage)`, and on
reaching ≤ 0 it is exactly 0 with isAlive set false and lives decremented once
(floored at 0); health never becomes negative; and across one whole
resolveCollisions pass any player loses at most one life, however many events
hit them. -/
theorem damagePlayer_gate_and_lives_bound (p : Player) (d t : ℚ) :
    ((t < p.invulnerableUntil ∨ p.isAlive = false) →
      damagePlayerFromCollision p d t = (p, false)) ∧
    (¬(t < p.invulnerableUntil ∨ p.isAlive = false) →
      (damagePlayerFromCollision p d t).1.health = max 0 (p.health - d) ∧
      (p.health - d ≤ 0 →
        (damagePlayerFromCollision p d t).1.health = 0 ∧
        (damagePlayerFromCollision p d t).1.isAlive = false ∧
        (damagePlayerFromCollision p d t).1.lives = max 0 (p.lives - 1)) ∧
      (0 < p.health - d →
        (damagePlayerFromCollision p d t).1.health = p.health - d ∧
        (damagePlayerFromCollision p d t).1.isAlive = p.isAlive ∧
        (damagePlayerFromCollision p d t).1.lives = p.lives)) ∧
    (0 ≤ p.health → 0 ≤ (damagePlayerFromCollision p d t).1.health) ∧
    (∀ events players time pid p0 q,
      getPlayerEntry players pid = some p0 →
      getPlayerEntry (resolveCollisions events players time).1 pid = some q →
      p0.lives - 1 ≤ q.lives) := by
  refine ⟨?_, ?_, ?_, ?_⟩
  · intro hgate
    unfold damagePlayerFromCollision
    rw [if_pos hgate]
  · intro hgate
    unfold damagePlayerFromCollision
    rw [if_neg hgate]
    by_cases hdead : p.health - d ≤ 0
    · rw [if_pos hdead]
      refine ⟨?_, fun _ => ⟨rfl, rfl, rfl⟩, fun hpos => absurd hdead (not_le.mpr hpos)⟩
      simp only
      rw [max_eq_left hdead]
    · rw [if_neg hdead]
      push_neg at hdead
      refine ⟨?_, fun hle => absurd hle (not_le.mpr hdead), fun _ => ⟨rfl, rfl, rfl⟩⟩
      simp only
      rw [max_eq_right hdead.le]
  · intro hh
    unfold damagePlayerFromCollision
    split_ifs with hgate hdead
    · exact hh
    · exact le_refl 0
    · push_neg at hdead
      exact hdead.le
  · intro events players time pid p0 q h0 h1
    exact (mapLivesInv_resolveCollisions events players time pid p0 q h0 h1).2

/-! Development for C4: the movement pipeline. -/

/-- Rotation after the rotation step of updatePlayerMovement. -/
def rotationAfter (p : Player) (input : InputState) (dt : ℚ) : ℚ :=
  if input.rotate ≠ 0 then p.transform.rotation + input.rotate * ROTATION_SPEED * dt
  else p.transform.rotation

/-- Linear velocity after the thrust step. -/
def velAfterThrust (K : NumKernel) (p : Player) (input : InputState) (dt : ℚ) : Vector2 :=
  if input.thrust then
    Vec2.add p.velocity.linear
      (Vec2.fromAngle K (rotationAfter p input dt) (PLAYER_ACCELERATION * dt))
  else p.velocity.linear

/-- Linear velocity after the brake step. -/
def velAfterBrake (K : NumKernel) (p : Player) (input : InputState) (dt : ℚ) : Vector2 :=
  if input.brake then
    if 0 < Vec2.length K (velAfterThrust K p input dt) then
      Vec2.subtract (velAfterThrust K p input dt)
        (Vec2.multiply (Vec2.normalize K (velAfterThrust K p input dt))
          (min (BRAKE_DECELERATION * dt) (Vec2.length K (velAfterThrust K p input dt))))
    else velAfterThrust K p input dt
  else velAfterThrust K p input dt

theorem updatePlayerMovement_unfold (K : NumKernel) (p : Player) (input : InputState)
    (dt : ℚ) :
    updatePlayerMovement K p input dt =
      { p with
        transform :=
          ⟨wrapPosition
            (Vec2.add p.transform.position
              (Vec2.multiply (Vec2.limitLength K (velAfterBrake K p input dt) PLAYER_MAX_SPEED) dt))
            WORLD_WIDTH WORLD_HEIGHT,
           rotationAfter p input dt⟩
        velocity :=
          { p.velocity with
            linear := Vec2.limitLength K (velAfterBrake K p input dt) PLAYER_MAX_SPEED } } :=
  rfl

/-! The same pipeline as the specification words it (rotation unconditionally,
brake reduction along the velocity's own direction, speed clamp), for the
refinement comparison. -/

def specRotation (p : Player) (input : InputState) (dt : ℚ) : ℚ :=
  p.transform.rotation + input.rotate * ROTATION_SPEED * dt

def specVelThrust (K : NumKernel) (p : Player) (input : InputState) (dt : ℚ) : Vector2 :=
  if input.thrust then
    Vec2.add p.velocity.linear
      (Vec2.fromAngle K (specRotation p input dt) (PLAYER_ACCELERATION * dt))
  else p.velocity.linear

def specVelBrake (K : NumKernel) (p : Player) (input : InputState) (dt : ℚ) : Vector2 :=
  if input.brake = true ∧ 0 < Vec2.length K (specVelThrust K p input dt) then
    Vec2.subtract (specVelThrust K p input dt)
      (Vec2.multiply
        (Vec2.divide (specVelThrust K p input dt) (Vec2.length K (specVelThrust K p input dt)))
        (min (BRAKE_DECELERATION * dt) (Vec2.length K (specVelThrust K p input dt))))
  else specVelThrust K p input dt

def specVelClamped (K : NumKernel) (p : Player) (input : InputState) (dt : ℚ) : Vector2 :=
  if PLAYER_MAX_SPEED * PLAYER_MAX_SPEED < Vec2.lengthSquared (specVelBrake K p input dt) then
    Vec2.multiply
      (Vec2.divide (specVelBrake K p input dt) (Vec2.length K (specVelBrake K p input dt)))
      PLAYER_MAX_SPEED
  else specVelBrake K p input dt

/-- The movement integration step exactly as §4.4 of the specification words
it: rotate, thrust along the new heading, brake without reversing, clamp the
speed, integrate the position and wrap it. -/
def movementPerSpec (K : NumKernel) (p : Player) (input : InputState) (dt : ℚ) : Player :=
  { p with
    transform :=
      ⟨wrapPosition
        (Vec2.add p.transform.position (Vec2.multiply (specVelClamped K p input dt) dt))
        WORLD_WIDTH WORLD_HEIGHT,
       specRotation p input dt⟩
    velocity := { p.velocity with linear := specVelClamped K p input dt } }

theorem normalize_eq_divide (K : NumKernel) (v : Vector2) :
    Vec2.normalize K v = Vec2.divide v (Vec2.length K v) := by
  unfold Vec2.normalize
  split_ifs with hz
  · rw [hz]
    simp [Vec2.divide]
  · rfl

theorem lengthSquared_multiply (v : Vector2) (c : ℚ) :
    Vec2.lengthSquared (Vec2.multiply v c) = Vec2.lengthSquared v * (c * c) := by
  simp only [Vec2.lengthSquared, Vec2.multiply]
  ring

theorem lengthSquared_divide (v : Vector2) (s : ℚ) :
    Vec2.lengthSquared (Vec2.divide v s) = Vec2.lengthSquared v / (s * s) := by
  simp only [Vec2.lengthSquared, Vec2.divide, div_eq_mul_inv, mul_inv]
  ring

theorem rotationAfter_eq_spec (p : Player) (input : InputState) (dt : ℚ) :
    rotationAfter p input dt = specRotation p input dt := by
  unfold rotationAfter specRotation
  split_ifs with hr
  · rfl
  · push_neg at hr
    rw [hr]
    ring

theorem velAfterThrust_eq_spec (K : NumKernel) (p : Player) (input : InputState) (dt : ℚ) :
    velAfterThrust K p input dt = specVelThrust K p input dt := by
  unfold velAfterThrust specVelThrust
  rw [rotationAfter_eq_spec]

theorem velAfterBrake_eq_spec (K : NumKernel) (p : Player) (input : InputState) (dt : ℚ) :
    velAfterBrake K p input dt = specVelBrake K p input dt := by
  unfold velAfterBrake specVelBrake
  rw [velAfterThrust_eq_spec]
  cases hb : input.brake with
  | false => simp [hb]
  | true =>
    simp only [hb, if_true, true_and]
    split_ifs with hs
    · rw [normalize_eq_divide]
    · rfl

theorem limitLength_eq_specClamped (K : NumKernel) (p : Player) (input : InputState)
    (dt : ℚ) :
    Vec2.limitLength K (velAfterBrake K p input dt) PLAYER_MAX_SPEED =
      specVelClamped K p input dt := by
  unfold Vec2.limitLength specVelClamped
  rw [velAfterBrake_eq_spec]
  split_ifs with hgt
  · rw [normalize_eq_divide]
  · rfl

/-- C4: updatePlayerMovement performs exactly the pipeline the specification
describes (rotation, then thrust, then brake, then speed clamp, then position
integration with wrap — thrust before brake in the same step); braking only
rescales the post-thrust velocity by a factor in [0,1], so it never reverses
the direction of motion; and the resulting speed is clamped to MAX_SPEED
(stated on squared lengths; the clamp needs the kernel square root to be exact
at the clamped value, which the hypothesis provides). -/
theorem updatePlayerMovement_followsSpec (K : NumKernel) (p : Player)
    (input : InputState) (dt : ℚ) (hdt : 0 ≤ dt)
    (hsq : K.sqrt (Vec2.lengthSquared (velAfterBrake K p input dt)) *
        K.sqrt (Vec2.lengthSquared (velAfterBrake K p input dt)) =
        Vec2.lengthSquared (velAfterBrake K p input dt)) :
    updatePlayerMovement K p input dt = movementPerSpec K p input dt ∧
    (input.brake = true → ∃ c : ℚ, 0 ≤ c ∧ c ≤ 1 ∧
      velAfterBrake K p input dt = Vec2.multiply (velAfterThrust K p input dt) c) ∧
    Vec2.lengthSquared (updatePlayerMovement K p input dt).velocity.linear ≤
      PLAYER_MAX_SPEED * PLAYER_MAX_SPEED := by
  refine ⟨?_, ?_, ?_⟩
  · rw [updatePlayerMovement_unfold, movementPerSpec, limitLength_eq_specClamped,
      rotationAfter_eq_spec]
  · intro hb
    unfold velAfterBrake
    rw [hb]
    simp only [if_true]
    split_ifs with hs
    · refine ⟨1 - min (BRAKE_DECELERATION * dt) (Vec2.length K (velAfterThrust K p input dt)) /
        Vec2.length K (velAfterThrust K p input dt), ?_, ?_, ?_⟩
      · have hmle : min (BRAKE_DECELERATION * dt) (Vec2.length K (velAfterThrust K p input dt)) ≤
            Vec2.length K (velAfterThrust K p input dt) := min_le_right _ _
        have hdivle : min (BRAKE_DECELERATION * dt) (Vec2.length K (velAfterThrust K p input dt)) /
            Vec2.length K (velAfterThrust K p input dt) ≤ 1 :=
          (div_le_one hs).mpr hmle
        linarith
      · have hm0 : 0 ≤ min (BRAKE_DECELERATION * dt) (Vec2.length K (velAfterThrust K p input dt)) :=
          le_min (by unfold BRAKE_DECELERATION; positivity) hs.le
        have hdiv0 : 0 ≤ min (BRAKE_DECELERATION * dt) (Vec2.length K (velAfterThrust K p input dt)) /
            Vec2.length K (velAfterThrust K p input dt) := div_nonneg hm0 hs.le
        linarith
      · rw [normalize_eq_divide]
        simp only [Vec2.subtract, Vec2.multiply, Vec2.divide]
        have hne : Vec2.length K (velAfterThrust K p input dt) ≠ 0 := ne_of_gt hs
        congr 1 <;> field_simp <;> ring
    · exact ⟨1, by norm_num, by norm_num, by simp [Vec2.multiply]⟩
  · rw [updatePlayerMovement_unfold]
    simp only
    unfold Vec2.limitLength
    split_ifs with hgt
    · rw [lengthSquared_multiply, normalize_eq_divide, lengthSquared_divide]
      unfold Vec2.length
      have hpos : (0:ℚ) < Vec2.lengthSquared (velAfterBrake K p input dt) := by
        have : (0:ℚ) < PLAYER_MAX_SPEED * PLAYER_MAX_SPEED := by
          unfold PLAYER_MAX_SPEED; norm_num
        linarith
      rw [hsq, div_self (ne_of_gt hpos), one_mul]
    · exact le_of_not_lt hgt

def c4Player : Player :=
  { scenarioPlayer with velocity := ⟨⟨3, 4⟩, 0⟩ }

def c4Input : InputState := ⟨false, 0, true, false⟩

theorem isqrt_25 : isqrt 25 = 5 := by decide

theorem ratSqrt_natCast (n : ℕ) : ratSqrt (n : ℚ) = (isqrt n : ℚ) := by
  rw [ratSqrt, Rat.num_natCast, Rat.den_natCast]
  simp [isqrt, isqrtAux]

/-- Witness for C4 at a concrete braking step: the source function agrees with
the specification pipeline. -/
theorem updatePlayerMovement_followsSpec_witness :
    updatePlayerMovement ratKernel c4Player c4Input 1 =
      movementPerSpec ratKernel c4Player c4Input 1 :=
  (updatePlayerMovement_followsSpec ratKernel c4Player c4Input 1 (by norm_num)
    (by
      have hv : velAfterBrake ratKernel c4Player c4Input 1 = ⟨0, 0⟩ := by
        have hsq25 : Vec2.lengthSquared (velAfterThrust ratKernel c4Player c4Input 1) = 25 := by
          norm_num [velAfterThrust, c4Player, c4Input, scenarioPlayer, Vec2.lengthSquared]
        have hlen : Vec2.length ratKernel (velAfterThrust ratKernel c4Player c4Input 1) = 5 := by
          unfold Vec2.length
          rw [hsq25]
          show ratSqrt 25 = 5
          have h25 : (25 : ℚ) = ((25 : ℕ) : ℚ) := by norm_num
          rw [h25, ratSqrt_natCast, isqrt_25]
          norm_num
        have hvt : velAfterThrust ratKernel c4Player c4Input 1 = ⟨3, 4⟩ := by
          simp [velAfterThrust, c4Player, c4Input, scenarioPlayer]
        have hb : c4Input.brake = true := rfl
        unfold velAfterBrake
        rw [if_pos hb, if_pos (by rw [hlen]; norm_num : (0:ℚ) <
          Vec2.length ratKernel (velAfterThrust ratKernel c4Player c4Input 1))]
        rw [normalize_eq_divide, hlen, hvt]
        have hmin : min (BRAKE_DECELERATION * (1:ℚ)) 5 = 5 := by
          rw [min_eq_right]
          norm_num [BRAKE_DECELERATION]
        rw [hmin]
        simp only [Vec2.subtract, Vec2.multiply, Vec2.divide]
        norm_num
      rw [hv]
      have h0 : Vec2.lengthSquared (⟨0, 0⟩ : Vector2) = 0 := by
        norm_num [Vec2.lengthSquared]
      rw [h0]
      show ratSqrt 0 * ratSqrt 0 = 0
      rw [ratSqrt_zero]
      norm_num)).1

def invulnerablePlayer : Player :=
  { scenarioPlayer with invulnerableUntil := 50 }

/-- Witness for C5: an invulnerable player takes no damage at time 10, and a
vulnerable player hit for its full health ends at exactly health 0. -/
theorem damagePlayer_gate_and_lives_bound_witness :
    damagePlayerFromCollision invulnerablePlayer 100 10 = (invulnerablePlayer, false) ∧
    (damagePlayerFromCollision scenarioPlayer 100 10).1.health = 0 :=
  ⟨(damagePlayer_gate_and_lives_bound invulnerablePlayer 100 10).1
     (Or.inl (by norm_num [invulnerablePlayer, scenarioPlayer])),
   (((damagePlayer_gate_and_lives_bound scenarioPlayer 100 10).2.1
     (by norm_num [scenarioPlayer])).2.1 (by norm_num [scenarioPlayer])).1⟩

/-! Development for C6: shooting through GameWorld.processInput, from
`shared/src/simulation/gameWorld.ts`.  The model keeps the state GameWorld
touches when one player shoots: that player and the bullet map (as a list),
plus a counter into the id supply standing for generateId. -/

structure WorldState where
  player : Player
  bullets : List Bullet
  nextId : ℕ
deriving DecidableEq

/-- GameWorld.shootBullet: bullet spawned 12 units along the heading; the
call site passes the player's velocity as a fifth argument but createBullet's
parameter list stops at the timestamp, so it is dropped. -/
def shootBullet (K : NumKernel) (idF : ℕ → String) (st : WorldState)
    (currentTime : ℚ) : WorldState :=
  { player := { st.player with lastShotTime := currentTime }
    bullets := st.bullets ++
      [createBullet K (idF st.nextId) st.player.id
        (Vec2.add st.player.transform.position
          (Vec2.multiply (Vec2.fromAngle K st.player.transform.rotation 1) 12))
        (Vec2.fromAngle K st.player.transform.rotation 1) currentTime]
    nextId := st.nextId + 1 }

/-- GameWorld.processInput: dead players are ignored; a shoot input fires only
through the canPlayerShoot gate. -/
def processInput (K : NumKernel) (idF : ℕ → String) (st : WorldState)
    (input : InputState) (currentTime : ℚ) : WorldState :=
  if st.player.isAlive = false then st
  else if input.shoot && canPlayerShoot st.player currentTime then
    shootBullet K idF st currentTime
  else st

theorem ratSqrt_one : ratSqrt 1 = 1 := by
  have h := ratSqrt_natCast 1
  simpa using h

theorem lengthSquared_fromAngle (K : NumKernel) (t m : ℚ)
    (hunit : K.cos t * K.cos t + K.sin t * K.sin t = 1) :
    Vec2.lengthSquared (Vec2.fromAngle K t m) = m * m := by
  simp only [Vec2.lengthSquared, Vec2.fromAngle]
  calc K.cos t * m * (K.cos t * m) + K.sin t * m * (K.sin t * m)
      = (K.cos t * K.cos t + K.sin t * K.sin t) * (m * m) := by ring
  _ = m * m := by rw [hunit]; ring

theorem normalize_fromAngle_unit (K : NumKernel) (t : ℚ)
    (hunit : K.cos t * K.cos t + K.sin t * K.sin t = 1) (hs1 : K.sqrt 1 = 1) :
    Vec2.normalize K (Vec2.fromAngle K t 1) = Vec2.fromAngle K t 1 := by
  have hlen : Vec2.length K (Vec2.fromAngle K t 1) = 1 := by
    unfold Vec2.length
    rw [lengthSquared_fromAngle K t 1 hunit]
    simpa using hs1
  unfold Vec2.normalize
  rw [hlen]
  norm_num [Vec2.divide]

/-- C6: for a living player, a shoot input creates a bullet exactly when
`now - lastShotTime ≥ FIRE_RATE`; the created bullet starts at the player's
position offset 12 units along the heading, travels at heading * BULLET_SPEED
with no contribution from the player's own velocity, lastShotTime becomes the
shot time, and a second attempt within the fire-rate interval creates no
second bullet. -/
theorem shooting_fire_rate_gate (K : NumKernel) (idF : ℕ → String)
    (st : WorldState) (input : InputState) (now now2 : ℚ)
    (halive : st.player.isAlive = true)
    (hunit : K.cos st.player.transform.rotation * K.cos st.player.transform.rotation +
      K.sin st.player.transform.rotation * K.sin st.player.transform.rotation = 1)
    (hs1 : K.sqrt 1 = 1)
    (hshoot : input.shoot = true)
    (hgate1 : FIRE_RATE ≤ now - st.player.lastShotTime)
    (hgate2 : now2 - now < FIRE_RATE) :
    (∀ t : ℚ, (processInput K idF st input t).bullets.length =
      st.bullets.length + (if FIRE_RATE ≤ t - st.player.lastShotTime then 1 else 0)) ∧
    (processInput K idF st input now).bullets = st.bullets ++
      [{ id := idF st.nextId
         playerId := st.player.id
         transform :=
           ⟨Vec2.add st.player.transform.position
              (Vec2.multiply (Vec2.fromAngle K st.player.transform.rotation 1) 12),
            Vec2.angle K (Vec2.fromAngle K st.player.transform.rotation 1)⟩
         velocity := Vec2.multiply (Vec2.fromAngle K st.player.transform.rotation 1) BULLET_SPEED
         createdAt := now
         lifetime := BULLET_LIFETIME }] ∧
    (processInput K idF st input now).player.lastShotTime = now ∧
    (processInput K idF (processInput K idF st input now) input now2).bullets.length =
      st.bullets.length + 1 := by
  have hnotdead : ¬ st.player.isAlive = false := by rw [halive]; exact Bool.noConfusion
  have hfire : processInput K idF st input now = shootBullet K idF st now := by
    unfold processInput
    rw [if_neg hnotdead, if_pos]
    rw [hshoot, Bool.true_and]
    unfold canPlayerShoot
    exact decide_eq_true hgate1
  refine ⟨?_, ?_, ?_, ?_⟩
  · intro t
    unfold processInput
    rw [if_neg hnotdead]
    by_cases hg : FIRE_RATE ≤ t - st.player.lastShotTime
    · rw [if_pos, if_pos hg]
      · simp [shootBullet]
      · rw [hshoot, Bool.true_and]
        unfold canPlayerShoot
        exact decide_eq_true hg
    · rw [if_neg, if_neg hg]
      · simp
      · rw [hshoot, Bool.true_and]
        unfold canPlayerShoot
        intro hcontra
        exact hg (of_decide_eq_true hcontra)
  · rw [hfire]
    unfold shootBullet createBullet
    simp only [WorldState.mk.injEq]
    rw [normalize_fromAngle_unit K st.player.transform.rotation hunit hs1]
  · rw [hfire]
    rfl
  · rw [hfire]
    have hlast : (shootBullet K idF st now).player.lastShotTime = now := rfl
    have halive2 : (shootBullet K idF st now).player.isAlive = true := halive
    have hnotdead2 : ¬ (shootBullet K idF st now).player.isAlive = false := by
      rw [halive2]; exact Bool.noConfusion
    unfold processInput
    rw [if_neg hnotdead2, if_neg]
    · simp [shootBullet]
    · rw [hshoot, Bool.true_and]
      unfold canPlayerShoot
      rw [hlast]
      intro hcontra
      exact absurd (of_decide_eq_true hcontra) (not_le.mpr hgate2)

def c6World : WorldState := ⟨scenarioPlayer, [], 0⟩

def c6Input : InputState := ⟨false, 0, false, true⟩

/-- Witness for C6: a shot at time 1000 fires (lastShotTime was 0) and a
second attempt at time 1100 is swallowed by the 120 ms fire-rate gate. -/
theorem shooting_fire_rate_gate_witness :
    (processInput ratKernel (fun _ => "b0") c6World c6Input 1000).player.lastShotTime = 1000 ∧
    (processInput ratKernel (fun _ => "b0")
      (processInput ratKernel (fun _ => "b0") c6World c6Input 1000) c6Input 1100).bullets.length =
      (c6World).bullets.length + 1 :=
  ⟨(shooting_fire_rate_gate ratKernel (fun _ => "b0") c6World c6Input 1000 1100 rfl
      (by norm_num [ratKernel, c6World, scenarioPlayer]) ratSqrt_one rfl
      (by norm_num [FIRE_RATE, c6World, scenarioPlayer])
      (by norm_num [FIRE_RATE])).2.2.1,
   (shooting_fire_rate_gate ratKernel (fun _ => "b0") c6World c6Input 1000 1100 rfl
      (by norm_num [ratKernel, c6World, scenarioPlayer]) ratSqrt_one rfl
      (by norm_num [FIRE_RATE, c6World, scenarioPlayer])
      (by norm_num [FIRE_RATE])).2.2.2⟩

theorem distanceSquared_add_left (p w : Vector2) :
    Vec2.distanceSquared (Vec2.add p w) p = Vec2.lengthSquared w := by
  simp only [Vec2.distanceSquared, Vec2.subtract, Vec2.add, Vec2.lengthSquared]
  ring

/-- C7: splitting a LARGE asteroid yields exactly 2 MEDIUM children, each with
the MEDIUM configured radius, squared speed within the MEDIUM [MIN_SPEED,
MAX_SPEED] band, and squared offset distance at least
(parentRadius + childRadius)^2 from the parent's position; splitting a SMALL
asteroid yields the empty list. -/
theorem splitAsteroid_conservation (K : NumKernel) (rng : ℕ → ℚ)
    (ids : ℕ → String) (a : Asteroid)
    (hr : ∀ n, 0 ≤ rng n ∧ rng n < 1)
    (hunit : ∀ t, K.cos t * K.cos t + K.sin t * K.sin t = 1)
    (hrad : 0 ≤ a.radius)
    (hL : a.size = .large) :
    (splitAsteroid K rng ids a).length = 2 ∧
    (∀ c ∈ splitAsteroid K rng ids a,
      c.size = .medium ∧ c.radius = 20 ∧
      40 * 40 ≤ Vec2.lengthSquared c.velocity.linear ∧
      Vec2.lengthSquared c.velocity.linear ≤ 100 * 100 ∧
      (a.radius + c.radius) * (a.radius + c.radius) ≤
        Vec2.distanceSquared c.transform.position a.transform.position) ∧
    (∀ a2 : Asteroid, a2.size = .small → splitAsteroid K rng ids a2 = []) := by
  have hcfg : (asteroidConfig a.size).splitCount = 2 := by rw [hL]; rfl
  have hsplit : splitAsteroid K rng ids a = splitChildren K rng ids a .medium := by
    unfold splitAsteroid
    rw [hcfg, hL]
    simp
  refine ⟨?_, ?_, ?_⟩
  · rw [hsplit]
    unfold splitChildren
    rw [hcfg]
    simp
  · intro c hc
    rw [hsplit] at hc
    unfold splitChildren at hc
    obtain ⟨i, hi, hfc⟩ := List.mem_map.mp hc
    simp only at hfc
    subst hfc
    obtain ⟨hr1, hr2⟩ := hr (4 * i + 1)
    refine ⟨rfl, rfl, ?_, ?_, ?_⟩
    · show (40 : ℚ) * 40 ≤ Vec2.lengthSquared (Vec2.fromAngle K _ _)
      rw [lengthSquared_fromAngle K _ _ (hunit _)]
      simp only [asteroidConfig]
      nlinarith [hr1, hr2]
    · show Vec2.lengthSquared (Vec2.fromAngle K _ _) ≤ (100 : ℚ) * 100
      rw [lengthSquared_fromAngle K _ _ (hunit _)]
      simp only [asteroidConfig]
      nlinarith [hr1, hr2]
    · show (a.radius + (asteroidConfig .medium).radius) *
          (a.radius + (asteroidConfig .medium).radius) ≤
        Vec2.distanceSquared
          (Vec2.add a.transform.position (Vec2.fromAngle K _ _)) a.transform.position
      rw [distanceSquared_add_left, lengthSquared_fromAngle K _ _ (hunit _)]
      simp only [asteroidConfig]
      nlinarith [hrad]
  · intro a2 h2
    unfold splitAsteroid
    rw [h2]
    rfl

def zeroStream : ℕ → ℚ := fun _ => 0

def constIds : ℕ → String := fun _ => "child"

/-- Witness for C7 at the scenario's LARGE asteroid with the rational kernel
and the all-zero random stream: exactly two children. -/
theorem splitAsteroid_conservation_witness :
    (splitAsteroid ratKernel zeroStream constIds scenarioAsteroid).length = 2 :=
  (splitAsteroid_conservation ratKernel zeroStream constIds scenarioAsteroid
    (fun n => by norm_num [zeroStream])
    (fun t => by norm_num [ratKernel])
    (by norm_num [scenarioAsteroid]) rfl).1

/-! Development for C2 and C3: the room input loop
(`server/src/room/Room.ts`) and client prediction
(`client/src/game/ClientPrediction.ts`). -/

/-- Buffered input record ({sequence, timestamp, input, processed}), used both
by the server room buffer and the client prediction buffer. -/
structure ClientInputEntry where
  sequence : ℚ
  timestamp : ℚ
  input : InputState
  processed : Bool
deriving DecidableEq

/-- The partial player state ClientPrediction keeps (transform + velocity +
aliveness). -/
structure PredState where
  transform : Transform
  velocity : Velocity
  isAlive : Bool
deriving DecidableEq

/-- Wrap a predicted state into a full player record; updatePlayerMovement
reads only the transform and velocity and leaves every other field alone. -/
def toPlayer (s : PredState) : Player :=
  { id := "", name := "", transform := s.transform, velocity := s.velocity,
    health := 0, score := 0, lives := 0, isAlive := s.isAlive,
    lastInputSequence := 0, invulnerableUntil := 0, lastShotTime := 0 }

/-- ClientPrediction.applyInputToState: one replay step through the shared
movement function at the fixed simulation timestep. -/
def applyInputToState (K : NumKernel) (s : PredState) (input : InputState) : PredState :=
  { s with
    transform := (updatePlayerMovement K (toPlayer s) input FIXED_TIMESTEP).transform
    velocity := (updatePlayerMovement K (toPlayer s) input FIXED_TIMESTEP).velocity }

/-- ClientPrediction.reconcile: restart from the snapshot's authoritative
state and replay, in buffer order, every buffered input whose sequence exceeds
the last acknowledged one; dead predicted players are not moved. -/
def reconcile (K : NumKernel) (serverPlayer : PredState)
    (buffer : List ClientInputEntry) (lastAck : ℚ) : PredState :=
  (buffer.filter (fun e => lastAck < e.sequence)).foldl
    (fun s e => if s.isAlive then applyInputToState K s e.input else s) serverPlayer

/-- Server-side application of a list of inputs to the same player state
through the shared movement function, one fixed delta per input; the
per-input aliveness check mirrors GameWorld.updatePlayerMovement. -/
def serverApplyMovement (K : NumKernel) (s : PredState) (inputs : List InputState)
    (dt : ℚ) : PredState :=
  inputs.foldl
    (fun s inp =>
      if s.isAlive then
        { s with
          transform := (updatePlayerMovement K (toPlayer s) inp dt).transform
          velocity := (updatePlayerMovement K (toPlayer s) inp dt).velocity }
      else s) s

theorem rotation_of_rotateOnlyUpdate (K : NumKernel) (p : Player) (i : InputState)
    (dt : ℚ) (hrot : p.transform.rotation = 0) (hi : i.rotate = 1) :
    (updatePlayerMovement K p i dt).transform.rotation = ROTATION_SPEED * dt := by
  rw [updatePlayerMovement_unfold]
  show rotationAfter p i dt = ROTATION_SPEED * dt
  rw [rotationAfter_eq_spec]
  unfold specRotation
  rw [hrot, hi]
  ring

def c2State : PredState := ⟨⟨⟨0, 0⟩, 0⟩, ⟨⟨0, 0⟩, 0⟩, true⟩

def rotateInput : InputState := ⟨false, 1, false, false⟩

def c2Entry : ClientInputEntry := ⟨1, 0, rotateInput, false⟩

/-- Counterexample for C2: replaying one unacknowledged rotate input
client-side (fixed timestep 1/60) does not reproduce the transform the server
gets by applying the same input to the same state through the same movement
function when the server's tick wall-clock delta is 1/30 — the code's server
per-input delta is the tick's wall-clock delta, not the fixed timestep. -/
theorem reconcile_vs_wallclock_counterexample :
    (reconcile ratKernel c2State [c2Entry] 0).transform.rotation ≠
      (serverApplyMovement ratKernel c2State [rotateInput] (1 / 30)).transform.rotation := by
  have h1 : (reconcile ratKernel c2State [c2Entry] 0).transform.rotation =
      ROTATION_SPEED * (1 / 60) := by
    unfold reconcile
    have hf : ([c2Entry].filter (fun e => decide ((0:ℚ) < e.sequence))) = [c2Entry] := by
      simp [c2Entry]
    rw [hf]
    simp only [List.foldl_cons, List.foldl_nil]
    rw [if_pos (show c2State.isAlive = true from rfl)]
    show (applyInputToState ratKernel c2State rotateInput).transform.rotation =
      ROTATION_SPEED * (1 / 60)
    unfold applyInputToState
    exact rotation_of_rotateOnlyUpdate ratKernel (toPlayer c2State) rotateInput
      FIXED_TIMESTEP rfl rfl
  have h2 : (serverApplyMovement ratKernel c2State [rotateInput] (1 / 30)).transform.rotation =
      ROTATION_SPEED * (1 / 30) := by
    unfold serverApplyMovement
    simp only [List.foldl_cons, List.foldl_nil]
    rw [if_pos (show c2State.isAlive = true from rfl)]
    exact rotation_of_rotateOnlyUpdate ratKernel (toPlayer c2State) rotateInput
      (1 / 30) rfl rfl
  rw [h1, h2]
  norm_num [ROTATION_SPEED]

/-- C2 (amended): the client reconcile replay equals the server applying, to
the same starting state, exactly the buffered inputs whose sequence exceeds
the last acknowledged one, through the shared movement function — when the
server applies each of them with delta equal to the client's fixed simulation
timestep. -/
theorem reconcile_matches_server_fixed_dt (K : NumKernel) (S : PredState)
    (buffer : List ClientInputEntry) (lastAck : ℚ) :
    reconcile K S buffer lastAck =
      serverApplyMovement K S
        ((buffer.filter (fun e => lastAck < e.sequence)).map (fun e => e.input))
        FIXED_TIMESTEP := by
  unfold reconcile serverApplyMovement
  rw [List.foldl_map]
  rfl

/-! The room tick's input-buffer processing. -/

/-- GameWorld.updatePlayerMovement at world level: dead players are not
moved; thrust particles are cosmetic and outside this model. -/
def updatePlayerMovementW (K : NumKernel) (st : WorldState) (input : InputState)
    (dt : ℚ) : WorldState :=
  if st.player.isAlive = false then st
  else { st with player := updatePlayerMovement K st.player input dt }

/-- One burst step of Room.processClientInput: GameWorld.processInput
(shooting) at the record's own timestamp, then GameWorld.updatePlayerMovement
with the given tick delta. -/
def burstStep (K : NumKernel) (idF : ℕ → String) (tickDelta : ℚ)
    (s : WorldState) (e : InputState × ℚ) : WorldState :=
  updatePlayerMovementW K (processInput K idF s e.1 e.2) e.1 tickDelta

/-- Marking a buffer record processed. -/
def markProcessed (e : ClientInputEntry) : ClientInputEntry :=
  { e with processed := true }

/-- Room.processClientInput from `server/src/room/Room.ts`: skip dead
players; apply every not-yet-processed record in buffer order (shooting at the
record's timestamp, movement at the tick's wall-clock delta), mark records
processed, then drop records older than one second. -/
def processClientInput (K : NumKernel) (idF : ℕ → String) (st : WorldState)
    (buf : List ClientInputEntry) (tickDelta now : ℚ) :
    WorldState × List ClientInputEntry :=
  if st.player.isAlive = false then (st, buf)
  else
    let folded := buf.foldl
      (fun (acc : WorldState × List ClientInputEntry) e =>
        if e.processed then (acc.1, acc.2 ++ [e])
        else (burstStep K idF tickDelta acc.1 (e.input, e.timestamp),
              acc.2 ++ [markProcessed e]))
      (st, ([] : List ClientInputEntry))
    (folded.1, folded.2.filter (fun e => now - 1000 < e.timestamp))

theorem processClientInput_foldAux (K : NumKernel) (idF : ℕ → String)
    (tickDelta : ℚ) (buf : List ClientInputEntry) :
    ∀ (s : WorldState) (l : List ClientInputEntry),
      buf.foldl
        (fun (acc : WorldState × List ClientInputEntry) e =>
          if e.processed then (acc.1, acc.2 ++ [e])
          else (burstStep K idF tickDelta acc.1 (e.input, e.timestamp),
                acc.2 ++ [markProcessed e]))
        (s, l) =
      (((buf.filter (fun e => !e.processed)).map (fun e => (e.input, e.timestamp))).foldl
          (burstStep K idF tickDelta) s,
       l ++ buf.map markProcessed) := by
  induction buf with
  | nil => intro s l; simp
  | cons e rest ih =>
    intro s l
    cases hp : e.processed
    · simp only [List.foldl_cons, hp, Bool.false_eq_true, if_false, List.filter_cons,
        Bool.not_false, List.map_cons]
      rw [ih]
      simp
    · have hme : markProcessed e = e := by
        obtain ⟨sq, ts, ii, pr⟩ := e
        simp only [ClientInputEntry.mk.injEq] at hp ⊢
        simp [markProcessed, hp]
      simp only [List.foldl_cons, hp, if_true, List.filter_cons, Bool.not_true,
        List.map_cons]
      rw [ih]
      simp [hme]

/-- C3 (amended): for a living client, one room tick applies every buffered
not-yet-processed record in arrival order — shooting evaluated at the record's
own timestamp, movement integrated with the tick's wall-clock delta, the same
delta for every record of the burst — marks all records processed, and prunes
records older than one second. -/
theorem processClientInput_burst_tickDelta (K : NumKernel) (idF : ℕ → String)
    (st : WorldState) (buf : List ClientInputEntry) (tickDelta now : ℚ)
    (halive : st.player.isAlive = true) :
    processClientInput K idF st buf tickDelta now =
      (((buf.filter (fun e => !e.processed)).map (fun e => (e.input, e.timestamp))).foldl
          (burstStep K idF tickDelta) st,
       (buf.map markProcessed).filter (fun e => now - 1000 < e.timestamp)) := by
  unfold processClientInput
  rw [if_neg (by rw [halive]; exact Bool.noConfusion)]
  rw [processClientInput_foldAux]
  simp

/-- Witness for C3's amended statement at a concrete burst. -/
theorem processClientInput_burst_tickDelta_witness :
    processClientInput ratKernel constIds c6World [c2Entry] (1 / 60) 1500 =
      ((([c2Entry].filter (fun e => !e.processed)).map (fun e => (e.input, e.timestamp))).foldl
          (burstStep ratKernel constIds (1 / 60)) c6World,
       ([c2Entry].map markProcessed).filter (fun e => (1500 : ℚ) - 1000 < e.timestamp)) :=
  processClientInput_burst_tickDelta ratKernel constIds c6World [c2Entry] (1 / 60) 1500 rfl

def c3Entry : ClientInputEntry := ⟨1, 1000, rotateInput, false⟩

/-- Counterexample for C3: the same buffered record, processed in ticks whose
wall-clock deltas differ, yields different player rotations — so the movement
delta for a record is the tick's wall-clock delta, not a delta computed from
the record's own timestamp (which is identical in both runs). -/
theorem processClientInput_wallclock_counterexample :
    (processClientInput ratKernel constIds c6World [c3Entry] (1 / 60) 1500).1.player.transform.rotation ≠
      (processClientInput ratKernel constIds c6World [c3Entry] (1 / 30) 1500).1.player.transform.rotation := by
  have heval : ∀ dt : ℚ,
      (processClientInput ratKernel constIds c6World [c3Entry] dt 1500).1.player.transform.rotation =
        ROTATION_SPEED * dt := by
    intro dt
    rw [processClientInput_burst_tickDelta ratKernel constIds c6World [c3Entry] dt 1500 rfl]
    show ((([c3Entry].filter (fun e => !e.processed)).map (fun e => (e.input, e.timestamp))).foldl
        (burstStep ratKernel constIds dt) c6World).player.transform.rotation = ROTATION_SPEED * dt
    have hf : ([c3Entry].filter (fun e => !e.processed)) = [c3Entry] := by
      simp [c3Entry]
    rw [hf]
    simp only [List.map_cons, List.map_nil, List.foldl_cons, List.foldl_nil]
    unfold burstStep
    have hpi : processInput ratKernel constIds c6World c3Entry.input c3Entry.timestamp =
        c6World := by
      unfold processInput
      rw [if_neg (by exact Bool.noConfusion)]
      rw [if_neg]
      rw [show c3Entry.input.shoot = false from rfl, Bool.false_and]
      exact Bool.noConfusion
    rw [hpi]
    unfold updatePlayerMovementW
    rw [if_neg (by exact Bool.noConfusion)]
    show (updatePlayerMovement ratKernel scenarioPlayer c3Entry.input dt).transform.rotation =
      ROTATION_SPEED * dt
    exact rotation_of_rotateOnlyUpdate ratKernel scenarioPlayer c3Entry.input dt rfl rfl
  rw [heval (1 / 60), heval (1 / 30)]
  norm_num [ROTATION_SPEED]

/-! Development for C10: the SpatialHash broad phase from
`shared/src/utils.ts`.  Cell keys are modelled as integer pairs, standing for
the source's "x,y" strings (an injective encoding); the id -> record map is an
association list. -/

def HashObj : Type := String × Vector2 × ℚ

instance : DecidableEq HashObj := by
  unfold HashObj
  infer_instance

/-- Integers from lo to hi inclusive. -/
def intRange (lo hi : ℤ) : List ℤ :=
  Int.range lo (hi + 1)

namespace SpatialHash

/-- getCellsForObject: all cell keys overlapped by the bounding square
center ± radius, from floor((v - r)/cellSize) to floor((v + r)/cellSize) on
each axis. -/
def getCellsForObject (c : ℚ) (p : Vector2) (r : ℚ) : List (ℤ × ℤ) :=
  (intRange ⌊(p.x - r) / c⌋ ⌊(p.x + r) / c⌋).flatMap (fun i =>
    (intRange ⌊(p.y - r) / c⌋ ⌊(p.y + r) / c⌋).map (fun j => (i, j)))

/-- SpatialHash.insert: remove any previous record for the id, then store the
new one; bucket membership is derived from the stored records. -/
def insert (os : List HashObj) (id : String) (p : Vector2) (r : ℚ) : List HashObj :=
  (id, p, r) :: os.filter (fun o => decide (o.1 ≠ id))

/-- SpatialHash.query: walk the query footprint's cell keys, take the union
of the buckets (records whose own cell keys contain that key), and
deduplicate. -/
def query (c : ℚ) (os : List HashObj) (qp : Vector2) (qr : ℚ) : List String :=
  ((getCellsForObject c qp qr).flatMap (fun key =>
    (os.filter (fun o => decide (key ∈ getCellsForObject c o.2.1 o.2.2))).map
      (fun o => o.1))).dedup

end SpatialHash

theorem mem_intRange (lo hi x : ℤ) : x ∈ intRange lo hi ↔ lo ≤ x ∧ x ≤ hi := by
  unfold intRange
  rw [Int.mem_range_iff]
  omega

theorem mem_getCellsForObject (c : ℚ) (p : Vector2) (r : ℚ) (k : ℤ × ℤ) :
    k ∈ SpatialHash.getCellsForObject c p r ↔
      ⌊(p.x - r) / c⌋ ≤ k.1 ∧ k.1 ≤ ⌊(p.x + r) / c⌋ ∧
      ⌊(p.y - r) / c⌋ ≤ k.2 ∧ k.2 ≤ ⌊(p.y + r) / c⌋ := by
  obtain ⟨k1, k2⟩ := k
  unfold SpatialHash.getCellsForObject
  simp only [List.mem_flatMap, List.mem_map, mem_intRange, Prod.mk.injEq]
  constructor
  · rintro ⟨i, ⟨hi1, hi2⟩, j, ⟨hj1, hj2⟩, rfl, rfl⟩
    exact ⟨hi1, hi2, hj1, hj2⟩
  · rintro ⟨h1, h2, h3, h4⟩
    exact ⟨k1, ⟨h1, h2⟩, k2, ⟨h3, h4⟩, rfl, rfl⟩

theorem mem_spatialQuery (c : ℚ) (os : List HashObj) (qp : Vector2) (qr : ℚ)
    (id : String) :
    id ∈ SpatialHash.query c os qp qr ↔
      ∃ p r, (id, p, r) ∈ os ∧
        ∃ k, k ∈ SpatialHash.getCellsForObject c p r ∧
          k ∈ SpatialHash.getCellsForObject c qp qr := by
  unfold SpatialHash.query
  rw [List.mem_dedup]
  simp only [List.mem_flatMap, List.mem_map, List.mem_filter, decide_eq_true_eq]
  constructor
  · rintro ⟨key, hkey, o, ⟨ho, hmem⟩, rfl⟩
    exact ⟨o.2.1, o.2.2, ho, key, hmem, hkey⟩
  · rintro ⟨p, r, hmem, k, hk1, hk2⟩
    exact ⟨k, hk2, (id, p, r), ⟨hmem, hk1⟩, rfl⟩

theorem abs_bounds_of_sq_le (a b : ℚ) (hb : 0 ≤ b) (h : a * a ≤ b * b) :
    -b ≤ a ∧ a ≤ b := by
  constructor <;> nlinarith

theorem cells_overlap_of_circles (c : ℚ) (hc : 0 < c) (p : Vector2) (r : ℚ)
    (qp : Vector2) (qr : ℚ) (hr : 0 ≤ r) (hqr : 0 ≤ qr)
    (h : Vec2.distanceSquared p qp ≤ (r + qr) * (r + qr)) :
    ∃ k : ℤ × ℤ, k ∈ SpatialHash.getCellsForObject c p r ∧
      k ∈ SpatialHash.getCellsForObject c qp qr := by
  have hsum : (0:ℚ) ≤ r + qr := by linarith
  have hds : (p.x - qp.x) * (p.x - qp.x) + (p.y - qp.y) * (p.y - qp.y) ≤
      (r + qr) * (r + qr) := by
    simpa [Vec2.distanceSquared, Vec2.subtract, Vec2.lengthSquared] using h
  have hx := abs_bounds_of_sq_le (p.x - qp.x) (r + qr) hsum
    (by nlinarith [mul_self_nonneg (p.y - qp.y)])
  have hy := abs_bounds_of_sq_le (p.y - qp.y) (r + qr) hsum
    (by nlinarith [mul_self_nonneg (p.x - qp.x)])
  have hdivle : ∀ a b : ℚ, a ≤ b → a / c ≤ b / c := by
    intro a b hab
    exact (div_le_div_iff_of_pos_right hc).mpr hab
  refine ⟨(⌊max (p.x - r) (qp.x - qr) / c⌋, ⌊max (p.y - r) (qp.y - qr) / c⌋), ?_, ?_⟩
  · rw [mem_getCellsForObject]
    refine ⟨Int.floor_le_floor (hdivle _ _ (le_max_left _ _)), ?_, ?_, ?_⟩
    · apply Int.floor_le_floor
      apply hdivle
      apply max_le
      · linarith
      · linarith [hx.1]
    · exact Int.floor_le_floor (hdivle _ _ (le_max_left _ _))
    · apply Int.floor_le_floor
      apply hdivle
      apply max_le
      · linarith
      · linarith [hy.1]
  · rw [mem_getCellsForObject]
    refine ⟨Int.floor_le_floor (hdivle _ _ (le_max_right _ _)), ?_, ?_, ?_⟩
    · apply Int.floor_le_floor
      apply hdivle
      apply max_le
      · linarith [hx.2]
      · linarith
    · exact Int.floor_le_floor (hdivle _ _ (le_max_right _ _))
    · apply Int.floor_le_floor
      apply hdivle
      apply max_le
      · linarith [hy.2]
      · linarith

/-- C10: the broad-phase query returns a duplicate-free candidate list that
contains every stored id whose bounding-square cell range shares a grid cell
with the query's cell range (and only such ids), and in particular every
stored id whose circle intersects the query circle — the broad phase never
misses a true circle-circle collision between indexed entities. -/
theorem spatialHash_query_complete (c : ℚ) (os : List HashObj) (qp : Vector2)
    (qr : ℚ) (hc : 0 < c) :
    (SpatialHash.query c os qp qr).Nodup ∧
    (∀ id p r, (id, p, r) ∈ os →
      (∃ k, k ∈ SpatialHash.getCellsForObject c p r ∧
        k ∈ SpatialHash.getCellsForObject c qp qr) →
      id ∈ SpatialHash.query c os qp qr) ∧
    (∀ id, id ∈ SpatialHash.query c os qp qr →
      ∃ p r, (id, p, r) ∈ os ∧
        ∃ k, k ∈ SpatialHash.getCellsForObject c p r ∧
          k ∈ SpatialHash.getCellsForObject c qp qr) ∧
    (∀ id p r, (id, p, r) ∈ os → 0 ≤ r → 0 ≤ qr →
      Vec2.distanceSquared p qp ≤ (r + qr) * (r + qr) →
      id ∈ SpatialHash.query c os qp qr) := by
  refine ⟨List.nodup_dedup _, ?_, ?_, ?_⟩
  · intro id p r hmem hk
    exact (mem_spatialQuery c os qp qr id).mpr ⟨p, r, hmem, hk⟩
  · intro id hid
    exact (mem_spatialQuery c os qp qr id).mp hid
  · intro id p r hmem hr hqr hcirc
    exact (mem_spatialQuery c os qp qr id).mpr
      ⟨p, r, hmem, cells_overlap_of_circles c hc p r qp qr hr hqr hcirc⟩

def w10Objects : List HashObj := [("a", ⟨0, 0⟩, 1)]

/-- Witness for C10: an object of radius 1 at the origin is returned as a
candidate for a radius-1 query at (0,1), whose circle touches it. -/
theorem spatialHash_query_complete_witness :
    "a" ∈ SpatialHash.query 100 w10Objects ⟨0, 1⟩ 1 :=
  (spatialHash_query_complete 100 w10Objects ⟨0, 1⟩ 1 (by norm_num)).2.2.2
    "a" ⟨0, 0⟩ 1 (by simp [w10Objects]) (by norm_num) (by norm_num)
    (by norm_num [Vec2.distanceSquared, Vec2.subtract, Vec2.lengthSquared])

end AsteroidsSpec
